import Mathlib

/-!
Verification of the rfi-text-extractor batch image pipeline.

The repository has two source files:
  * `src/black_roi/folder_importer.py` with `safe_load_image` and a batch
    runner `process_images` (suffix `FI` below), and
  * `src/streamlit_app.py` with `load_image_safely` and a second batch
    runner `process_images` (suffix `St` below).

External libraries (PIL decoding, the filesystem, numpy) are modelled as
oracles carried by each file record: each `Option Nat` field records whether
the corresponding external call succeeds (`some img`) or raises (`none`).
The Python standard-library header sniff `imghdr.what` is small and
deterministic, so it is modelled directly on the byte content.
Log-line emoji markers from the source are transliterated to ASCII tags.
-/

/-- Python `str.lower` restricted to the ASCII range, as used on filenames. -/
def strLower (s : String) : String := ⟨s.data.map Char.toLower⟩

/-- Python `str.upper` restricted to the ASCII range. -/
def strUpper (s : String) : String := ⟨s.data.map Char.toUpper⟩

/-- Python `s.endswith(post)`. -/
def strEndsWith (s post : String) : Bool := post.data.isSuffixOf s.data

/-- Helper for the `imghdr` P?M recognizers: first byte `P`, second byte one of
`digits`, third byte ASCII whitespace. -/
def pnmCheck (h : List Nat) (digits : List Nat) : Bool :=
  match h with
  | p :: d :: w :: _ =>
    p == 0x50 && digits.contains d && [0x20, 0x09, 0x0A, 0x0D].contains w
  | _ => false

/-- Model of the Python standard-library `imghdr.what` header sniff used at
`folder_importer.py` lines 21 and 118 and `streamlit_app.py` line 147.  Each
recognizer inspects a fixed byte pattern near the start of the data (the
recognizers, in stdlib order: jpeg, png, gif, tiff, rgb, pbm, pgm, ppm, rast,
xbm, bmp, webp, exr); every recognizer requires non-empty data, so zero-byte
content matches none of them. -/
def imghdr_what (h : List Nat) : Option String :=
  if (h.drop 6).take 4 = [0x4A, 0x46, 0x49, 0x46] ∨
     (h.drop 6).take 4 = [0x45, 0x78, 0x69, 0x66] then some "jpeg"
  else if h.take 8 = [0x89, 0x50, 0x4E, 0x47, 0x0D, 0x0A, 0x1A, 0x0A] then some "png"
  else if h.take 6 = [0x47, 0x49, 0x46, 0x38, 0x37, 0x61] ∨
          h.take 6 = [0x47, 0x49, 0x46, 0x38, 0x39, 0x61] then some "gif"
  else if h.take 2 = [0x4D, 0x4D] ∨ h.take 2 = [0x49, 0x49] then some "tiff"
  else if h.take 2 = [0x01, 0xDA] then some "rgb"
  else if pnmCheck h [0x31, 0x34] then some "pbm"
  else if pnmCheck h [0x32, 0x35] then some "pgm"
  else if pnmCheck h [0x33, 0x36] then some "ppm"
  else if h.take 4 = [0x59, 0xA6, 0x6A, 0x95] then some "rast"
  else if h.take 8 = [0x23, 0x64, 0x65, 0x66, 0x69, 0x6E, 0x65, 0x20] then some "xbm"
  else if h.take 2 = [0x42, 0x4D] then some "bmp"
  else if h.take 4 = [0x52, 0x49, 0x46, 0x46] ∧
          (h.drop 8).take 4 = [0x57, 0x45, 0x42, 0x50] then some "webp"
  else if h.take 4 = [0x76, 0x2F, 0x31, 0x01] then some "exr"
  else none

/-- The eight-byte PNG signature, used by concrete test inputs. -/
def pngSig : List Nat := [0x89, 0x50, 0x4E, 0x47, 0x0D, 0x0A, 0x1A, 0x0A]

/-- A file visited by the batch runners.  `content` is its raw bytes (feeding
the `imghdr` sniff); the remaining fields are oracles for the external PIL
calls made on it: `primary` is `Image.open(path).convert("RGB")`, `byteLoad`
is the in-memory `BytesIO` decode, `forcedJpeg` is the decode with
`formats=['JPEG']` (`folder_importer.py` line 140), and `transform` is the
combined `process_fn` + `Image.fromarray(...).save` step (`none` = raises). -/
structure FileData where
  fname : String
  content : List Nat
  primary : Option Nat
  byteLoad : Option Nat
  forcedJpeg : Option Nat
  transform : Option Nat
  deriving Repr, DecidableEq

/-- One directory visited by `os.walk`, identified by its component path
relative to the input root (`[]` is the input root itself). -/
structure WalkDir where
  relDir : List String
  files : List FileData
  deriving Repr, DecidableEq

/-- Observable filesystem/log events of a run, in program order:
`mkdirp` is `Path.mkdir(parents=True, exist_ok=True)`, `save` writes the
transformed image, `logLine` is a `log(...)` call. -/
inductive Eff
  | mkdirp (p : List String)
  | save (p : List String)
  | logLine (s : String)
  deriving Repr, DecidableEq

/-- Recognizes the `save` events among a run's effects. -/
def isSave : Eff → Bool
  | .save _ => true
  | _ => false

/-- Extension tuple of `folder_importer.py` line 99:
`('.png', '.jpg', '.jpeg', '.bmp', '.tiff', '.gif')`. -/
def folderImporterExts : List String :=
  [".png", ".jpg", ".jpeg", ".bmp", ".tiff", ".gif"]

/-- The `IMAGE_EXTENSIONS` tuple of `streamlit_app.py` line 25:
`('.png', '.jpg', '.jpeg', '.bmp', '.tiff', '.gif', '.tif')`. -/
def IMAGE_EXTENSIONS : List String :=
  [".png", ".jpg", ".jpeg", ".bmp", ".tiff", ".gif", ".tif"]

/-- Modelled from the spec's words: the recognized image-extension set
`.png .jpg .jpeg .bmp .tiff .tif .gif` named by the specification, for
comparison with the two matchers translated from the code. -/
def claimedExtSet : List String :=
  [".png", ".jpg", ".jpeg", ".bmp", ".tiff", ".tif", ".gif"]

/-- The test `file.lower().endswith(('.png', '.jpg', '.jpeg', '.bmp', '.tiff', '.gif'))`
of `folder_importer.py` line 99. -/
def matchesExtFI (name : String) : Bool :=
  folderImporterExts.any (fun e => strEndsWith (strLower name) e)

/-- The test `file.lower().endswith(IMAGE_EXTENSIONS)` of `streamlit_app.py` line 70. -/
def matchesExtSt (name : String) : Bool :=
  IMAGE_EXTENSIONS.any (fun e => strEndsWith (strLower name) e)

/-- Directory-exclusion test of both runners
(`output_folder in root_path.parents or root_path == output_folder`,
`folder_importer.py` line 95, `streamlit_app.py` line 66), stated on paths
relative to the input root: excluded exactly when the first component is the
output folder name. -/
def excludedDir (outName : String) : List String → Bool
  | [] => false
  | d :: _ => d == outName

/-- Index of the last `.` in a character list, if any. -/
def rfindDot : List Char → Option Nat
  | [] => none
  | c :: rest =>
    match rfindDot rest with
    | some i => some (i + 1)
    | none => if c = '.' then some 0 else none

/-- Python `pathlib` `stem`/`suffix` split of a file name: the suffix starts
at the last dot provided that dot is neither the first nor the last
character; otherwise the suffix is empty. -/
def splitName (name : String) : String × String :=
  let cs := name.data
  match rfindDot cs with
  | some i =>
    if 0 < i ∧ i + 1 < cs.length then (⟨cs.take i⟩, ⟨cs.drop i⟩) else (name, "")
  | none => (name, "")

/-- One OCR side-channel record: a mapping from keys (such as `'X'`) to lists
of numeric values. -/
abbrev OcrRecord := List (String × List Nat)

/-- The OCR side channel: a mapping from stems to records (`ocr_results`). -/
abbrev OcrResults := List (String × OcrRecord)

/-- The `ocr_text` computation of both runners (`folder_importer.py`
lines 107-111, `streamlit_app.py` lines 91-95): when the side channel is
truthy, has a record for the stem, and that record's `'X'` list has at least
two values `a, b, ...`, the tag is `"a_b_"`; otherwise it is empty. -/
def ocrText (ocr : Option OcrResults) (stem : String) : String :=
  match ocr with
  | none => ""
  | some m =>
    if m.isEmpty then ""
    else
      match m.lookup stem with
      | none => ""
      | some record =>
        match (record.lookup "X").getD [] with
        | a :: b :: _ => toString a ++ "_" ++ toString b ++ "_"
        | _ => ""

/-- The computation `processed_name = ocr_text + stem + suffix` of both runners. -/
def outputName (ocr : Option OcrResults) (stem suffix : String) : String :=
  ocrText ocr stem ++ stem ++ suffix

/-- Per-candidate body of `folder_importer.process_images` (lines 100-160):
compute the output name, create the mirrored parent directory, sniff the
header, decode with the inline fallback chain (standard open, byte loader,
forced JPEG), then apply the transform and save.  Returns the ordered effect
trace, whether the file was processed (`true`) or skipped (`false`), and the
stem that would be appended to `original_stems`. -/
def fileStepFI (outName : String) (ocr : Option OcrResults) (relDir : List String)
    (f : FileData) : List Eff × Bool × String :=
  let sp := splitName f.fname
  let stem := sp.1
  let pname := ocrText ocr stem ++ stem ++ sp.2
  let parent := outName :: relDir
  let outPath := parent ++ [pname]
  let mk : List Eff := [Eff.mkdirp parent]
  match imghdr_what f.content with
  | none =>
    (mk ++ [Eff.logLine ("warn: not an image despite extension: " ++ f.fname)],
     false, stem)
  | some _ =>
    let runTransform : List Eff → List Eff × Bool × String := fun pre =>
      match f.transform with
      | some _ =>
        (mk ++ pre ++ [Eff.save outPath, Eff.logLine ("saved: " ++ pname)], true, stem)
      | none =>
        (mk ++ pre ++ [Eff.logLine ("error: processing failed: " ++ f.fname)],
         false, stem)
    match f.primary with
    | some _ => runTransform []
    | none =>
      let pfail := Eff.logLine ("warn: primary load failed, trying fallback: " ++ f.fname)
      match f.byteLoad with
      | some _ => runTransform [pfail, Eff.logLine "recovered using byte loader"]
      | none =>
        match f.forcedJpeg with
        | some _ => runTransform [pfail, Eff.logLine "recovered by forcing JPEG format"]
        | none =>
          (mk ++ [pfail, Eff.logLine ("error: cannot open image: " ++ f.fname)],
           false, stem)

/-- Function `load_image_safely` of `streamlit_app.py` lines 142-163: header sniff,
then the standard open, then the byte-buffer decode; `none` on all failures. -/
def load_image_safely (f : FileData) : Option Nat :=
  match imghdr_what f.content with
  | none => none
  | some _ =>
    match f.primary with
    | some v => some v
    | none => f.byteLoad

/-- Per-candidate body of `streamlit_app.process_images` (lines 80-120):
mkdir the mirrored parent, load via `load_image_safely`, then transform and
save, skipping on any failure. -/
def fileStepSt (outName : String) (ocr : Option OcrResults) (relDir : List String)
    (f : FileData) : List Eff × Bool × String :=
  let sp := splitName f.fname
  let stem := sp.1
  let pname := ocrText ocr stem ++ stem ++ sp.2
  let parent := outName :: relDir
  let outPath := parent ++ [pname]
  let mk : List Eff := [Eff.mkdirp parent]
  match load_image_safely f with
  | none =>
    (mk ++ [Eff.logLine ("warn: not a valid image: " ++ f.fname)], false, stem)
  | some _ =>
    match f.transform with
    | some _ =>
      (mk ++ [Eff.save outPath, Eff.logLine ("processed: " ++ pname)], true, stem)
    | none =>
      (mk ++ [Eff.logLine ("error: failed: " ++ f.fname)], false, stem)

/-- Candidate enumeration shared by both runners: walk the tree, drop every
directory excluded as the output subtree, and keep the files whose name
passes the extension matcher, in walk order. -/
def enumerateWith (matcher : String → Bool) (outName : String)
    (tree : List WalkDir) : List (List String × FileData) :=
  ((tree.filter (fun w => !excludedDir outName w.relDir)).map
    (fun w => (w.files.filter (fun f => matcher f.fname)).map
      (fun f => (w.relDir, f)))).flatten

/-- Candidate enumeration of `folder_importer.process_images` (lines 91-99). -/
def enumerateFI (outName : String) (tree : List WalkDir) :
    List (List String × FileData) :=
  enumerateWith matchesExtFI outName tree

/-- Candidate enumeration of `streamlit_app.process_images` (lines 63-71). -/
def enumerateSt (outName : String) (tree : List WalkDir) :
    List (List String × FileData) :=
  enumerateWith matchesExtSt outName tree

/-- Mutable state of a run: the three counters, the processed-stem list and
the accumulated effect trace. -/
structure RunAcc where
  total : Nat
  processed : Nat
  skipped : Nat
  stems : List String
  effs : List Eff
  deriving Repr, DecidableEq

/-- The empty run state. -/
def initAcc : RunAcc := ⟨0, 0, 0, [], []⟩

/-- Fold step of a run: count the candidate as scanned, run the per-file
body, and credit exactly the processed or the skipped counter according to
its outcome. -/
def runStep (body : List String × FileData → List Eff × Bool × String)
    (st : RunAcc) (c : List String × FileData) : RunAcc :=
  let o := body c
  { total := st.total + 1
    processed := st.processed + (if o.2.1 then 1 else 0)
    skipped := st.skipped + (if o.2.1 then 0 else 1)
    stems := st.stems ++ (if o.2.1 then [o.2.2] else [])
    effs := st.effs ++ o.1 }

/-- Function `process_images` of `folder_importer.py` (lines 72-175), as the final
run state over the enumerated candidates. -/
def process_imagesFI (outName : String) (ocr : Option OcrResults)
    (tree : List WalkDir) : RunAcc :=
  (enumerateFI outName tree).foldl
    (runStep (fun c => fileStepFI outName ocr c.1 c.2)) initAcc

/-- Success-rate expression of the `streamlit_app.py` summary (line 134):
Python `processed/total*100`; `none` models the `ZeroDivisionError` raised
when `total = 0`. -/
def successRate (processed total : Nat) : Option ℚ :=
  if total = 0 then none else some ((processed : ℚ) / (total : ℚ) * 100)

/-- Result of the streamlit runner: the run state plus the summary's success
rate (`none` when the summary formatting raises). -/
structure RunStResult where
  acc : RunAcc
  rate : Option ℚ

/-- Function `process_images` of `streamlit_app.py` (lines 44-140). -/
def process_imagesSt (outName : String) (ocr : Option OcrResults)
    (tree : List WalkDir) : RunStResult :=
  let acc := (enumerateSt outName tree).foldl
    (runStep (fun c => fileStepSt outName ocr c.1 c.2)) initAcc
  ⟨acc, successRate acc.processed acc.total⟩

/-- Summary block of `folder_importer.process_images` (lines 163-169): three
labelled counter lines and no success-rate line. -/
def summaryFI (total processed skipped : Nat) : List String :=
  ["Total images scanned : " ++ toString total,
   "Successfully processed: " ++ toString processed,
   "Skipped (errors)     : " ++ toString skipped]

/-- Whether a candidate of the folder-importer runner obtains a decoded
image: the sniff passes and one of the three loaders succeeds. -/
def decodesFI (f : FileData) : Bool :=
  (imghdr_what f.content).isSome &&
    (f.primary.isSome || f.byteLoad.isSome || f.forcedJpeg.isSome)

/-- Whether a candidate of the folder-importer runner is processed. -/
def okFI (f : FileData) : Bool := decodesFI f && f.transform.isSome

/-- Whether a candidate of the streamlit runner is processed. -/
def okSt (f : FileData) : Bool := (load_image_safely f).isSome && f.transform.isSome

/-- A file as seen by `safe_load_image` (`folder_importer.py` lines 14-69):
`suffix` is `input_path.suffix`, `content` its raw bytes, `direct` the
standard `Image.open(path)` oracle, `byteLoad` the plain `BytesIO` decode
oracle, and `forced` the oracle for `Image.open(..., formats=[tok])` as a
function of the format token. -/
structure ImgFile where
  fname : String
  suffix : String
  content : List Nat
  direct : Option Nat
  byteLoad : Option Nat
  forced : String → Option Nat

/-- Python `str.strip('.')`: drop leading and trailing dots. -/
def stripDots (s : String) : String :=
  ⟨((s.data.dropWhile (· = '.')).reverse.dropWhile (· = '.')).reverse⟩

/-- Format token derivation of `safe_load_image` strategy 4 (lines 48-52):
`ext = suffix.lower().strip('.')`, `jpg` is mapped to `jpeg`, and the result
is uppercased. -/
def formatToken (suffix : String) : String :=
  let ext := stripDots (strLower suffix)
  let ext2 := if ext = "jpg" then "jpeg" else ext
  strUpper ext2

/-- First successful outcome of an ordered list of attempts. -/
def firstSome : List (Option Nat) → Option Nat
  | [] => none
  | none :: rest => firstSome rest
  | some v :: _ => some v

/-- The fixed format list of `safe_load_image` strategy 5 (line 58). -/
def commonFormats : List String := ["JPEG", "PNG", "BMP", "TIFF", "GIF", "WEBP"]

/-- Strategy 5 of `safe_load_image` (lines 57-67): try each format in order,
printing a success message on the first decode that works; failures are
silent (`except: continue`). -/
def exhaust (f : ImgFile) : List String → Option Nat × List String
  | [] => (none, [])
  | fmt :: rest =>
    match f.forced fmt with
    | some v => (some v, ["loaded as " ++ fmt ++ ": " ++ f.fname])
    | none => exhaust f rest

/-- Function `safe_load_image` (`folder_importer.py` lines 14-69), instrumented with
its printed diagnostics: the header sniff, then the standard open, the
byte-buffer decode, the forced-format decode with the extension-derived
token, and finally the exhaustive format sweep.  Returns the decoded image
(or `none`) together with the printed lines in order.  The exception texts
interpolated into the source's messages come from the external decoder and
are omitted from the modelled strings. -/
def safe_load_image_run (f : ImgFile) : Option Nat × List String :=
  match imghdr_what f.content with
  | none => (none, ["warn: file type check failed: " ++ f.fname])
  | some _ =>
    match f.direct with
    | some v => (some v, [])
    | none =>
      let l2 := ["warn: standard load failed"]
      match f.byteLoad with
      | some v => (some v, l2)
      | none =>
        let l3 := l2 ++ ["warn: byte load failed"]
        match f.forced (formatToken f.suffix) with
        | some v => (some v, l3)
        | none =>
          let l4 := l3 ++ ["warn: forced format load failed"]
          let e := exhaust f commonFormats
          (e.1, l4 ++ e.2)

/-- Return value of `safe_load_image`: the decoded image or `None`. -/
def safe_load_image (f : ImgFile) : Option Nat := (safe_load_image_run f).1

theorem countP_not_add {α : Type} (p : α → Bool) (l : List α) :
    l.countP p + l.countP (fun a => !p a) = l.length := by
  induction l with
  | nil => rfl
  | cons x xs ih =>
    cases h : p x <;> simp [List.countP_cons, h, ← ih] <;> omega

theorem fileStepFI_flag (outName : String) (ocr : Option OcrResults)
    (rd : List String) (f : FileData) :
    (fileStepFI outName ocr rd f).2.1 = okFI f := by
  rcases f with ⟨fn, ct, pr, bl, fj, tr⟩
  cases h : imghdr_what ct <;> cases pr <;> cases bl <;> cases fj <;> cases tr <;>
    simp [fileStepFI, okFI, decodesFI, h]

theorem fileStepFI_saves (outName : String) (ocr : Option OcrResults)
    (rd : List String) (f : FileData) :
    ((fileStepFI outName ocr rd f).1.countP isSave) = if okFI f then 1 else 0 := by
  rcases f with ⟨fn, ct, pr, bl, fj, tr⟩
  cases h : imghdr_what ct <;> cases pr <;> cases bl <;> cases fj <;> cases tr <;>
    simp [fileStepFI, okFI, decodesFI, isSave, h, List.countP_cons, List.countP_append]

theorem fileStepSt_flag (outName : String) (ocr : Option OcrResults)
    (rd : List String) (f : FileData) :
    (fileStepSt outName ocr rd f).2.1 = okSt f := by
  rcases f with ⟨fn, ct, pr, bl, fj, tr⟩
  cases h : load_image_safely ⟨fn, ct, pr, bl, fj, tr⟩ <;> cases tr <;>
    simp_all [fileStepSt, okSt]

theorem fileStepSt_saves (outName : String) (ocr : Option OcrResults)
    (rd : List String) (f : FileData) :
    ((fileStepSt outName ocr rd f).1.countP isSave) = if okSt f then 1 else 0 := by
  rcases f with ⟨fn, ct, pr, bl, fj, tr⟩
  cases h : load_image_safely ⟨fn, ct, pr, bl, fj, tr⟩ <;> cases tr <;>
    simp_all [fileStepSt, okSt, isSave, List.countP_cons, List.countP_append]

theorem foldRun_spec (body : List String × FileData → List Eff × Bool × String)
    (ok : List String × FileData → Bool)
    (hflag : ∀ c, (body c).2.1 = ok c)
    (hsave : ∀ c, (body c).1.countP isSave = if ok c then 1 else 0) :
    ∀ (cands : List (List String × FileData)) (st : RunAcc),
      (cands.foldl (runStep body) st).total = st.total + cands.length
    ∧ (cands.foldl (runStep body) st).processed = st.processed + cands.countP ok
    ∧ (cands.foldl (runStep body) st).skipped
        = st.skipped + cands.countP (fun c => !ok c)
    ∧ (cands.foldl (runStep body) st).effs.countP isSave
        = st.effs.countP isSave + cands.countP ok := by
  intro cands
  induction cands with
  | nil => intro st; simp
  | cons c cs ih =>
    intro st
    obtain ⟨h1, h2, h3, h4⟩ := ih (runStep body st c)
    simp only [List.foldl_cons]
    refine ⟨?_, ?_, ?_, ?_⟩
    · rw [h1]; simp only [runStep, List.length_cons]; omega
    · rw [h2]; simp only [runStep, hflag c, List.countP_cons]; omega
    · rw [h3]; simp only [runStep, hflag c, List.countP_cons]
      cases hc : ok c
      · simp [hc]; omega
      · simp [hc]
    · rw [h4]; simp only [runStep, List.countP_append, hsave c, List.countP_cons]
      omega

theorem runFI_counts (outName : String) (ocr : Option OcrResults)
    (tree : List WalkDir) :
    (process_imagesFI outName ocr tree).total = (enumerateFI outName tree).length
  ∧ (process_imagesFI outName ocr tree).processed
      = (enumerateFI outName tree).countP (fun c => okFI c.2)
  ∧ (process_imagesFI outName ocr tree).skipped
      = (enumerateFI outName tree).countP (fun c => !okFI c.2)
  ∧ (process_imagesFI outName ocr tree).effs.countP isSave
      = (enumerateFI outName tree).countP (fun c => okFI c.2) := by
  have h := foldRun_spec (fun c => fileStepFI outName ocr c.1 c.2)
    (fun c => okFI c.2)
    (fun c => fileStepFI_flag outName ocr c.1 c.2)
    (fun c => fileStepFI_saves outName ocr c.1 c.2)
    (enumerateFI outName tree) initAcc
  simpa [process_imagesFI, initAcc] using h

theorem runSt_counts (outName : String) (ocr : Option OcrResults)
    (tree : List WalkDir) :
    (process_imagesSt outName ocr tree).acc.total = (enumerateSt outName tree).length
  ∧ (process_imagesSt outName ocr tree).acc.processed
      = (enumerateSt outName tree).countP (fun c => okSt c.2)
  ∧ (process_imagesSt outName ocr tree).acc.skipped
      = (enumerateSt outName tree).countP (fun c => !okSt c.2)
  ∧ (process_imagesSt outName ocr tree).acc.effs.countP isSave
      = (enumerateSt outName tree).countP (fun c => okSt c.2) := by
  have h := foldRun_spec (fun c => fileStepSt outName ocr c.1 c.2)
    (fun c => okSt c.2)
    (fun c => fileStepSt_flag outName ocr c.1 c.2)
    (fun c => fileStepSt_saves outName ocr c.1 c.2)
    (enumerateSt outName tree) initAcc
  exact ⟨by simpa [process_imagesSt, initAcc] using h.1,
         by simpa [process_imagesSt, initAcc] using h.2.1,
         by simpa [process_imagesSt, initAcc] using h.2.2.1,
         by simpa [process_imagesSt, initAcc] using h.2.2.2⟩

theorem enumerateWith_not_excluded (matcher : String → Bool) (outName : String)
    (tree : List WalkDir) (rd : List String) (f : FileData)
    (h : (rd, f) ∈ enumerateWith matcher outName tree) :
    excludedDir outName rd = false := by
  simp only [enumerateWith, List.mem_flatten, List.mem_map, List.mem_filter] at h
  obtain ⟨l, ⟨w, ⟨hw, hex⟩, rfl⟩, hmem⟩ := h
  obtain ⟨f', hf', heq⟩ := List.mem_map.mp hmem
  obtain ⟨rfl, rfl⟩ := Prod.mk.injEq .. ▸ heq
  simpa using hex

theorem enumerateWith_append_excluded (matcher : String → Bool) (outName : String)
    (tree extra : List WalkDir)
    (h : ∀ w ∈ extra, excludedDir outName w.relDir = true) :
    enumerateWith matcher outName (tree ++ extra)
      = enumerateWith matcher outName tree := by
  have hextra : extra.filter (fun w => !excludedDir outName w.relDir) = [] :=
    List.filter_eq_nil_iff.mpr (fun w hw => by simp [h w hw])
  unfold enumerateWith
  rw [List.filter_append, hextra, List.append_nil]

theorem exhaust_eq_firstSome (f : ImgFile) (l : List String) :
    (exhaust f l).1 = firstSome (l.map f.forced) := by
  induction l with
  | nil => rfl
  | cons fmt rest ih =>
    cases h : f.forced fmt <;> simp [exhaust, firstSome, h, ih]

/-- C1: for every run of either batch runner, the final counters satisfy
`scanned = processed + skipped` exactly: each candidate whose extension
matches is counted as scanned and then as exactly one of processed or
skipped. -/
theorem C1_scanned_eq_processed_plus_skipped (outName : String)
    (ocr : Option OcrResults) (tree : List WalkDir) :
    (process_imagesFI outName ocr tree).total
      = (process_imagesFI outName ocr tree).processed
        + (process_imagesFI outName ocr tree).skipped
  ∧ (process_imagesSt outName ocr tree).acc.total
      = (process_imagesSt outName ocr tree).acc.processed
        + (process_imagesSt outName ocr tree).acc.skipped := by
  obtain ⟨h1, h2, h3, -⟩ := runFI_counts outName ocr tree
  obtain ⟨g1, g2, g3, -⟩ := runSt_counts outName ocr tree
  constructor
  · rw [h1, h2, h3]; exact (countP_not_add _ _).symm
  · rw [g1, g2, g3]; exact (countP_not_add _ _).symm

/-- C2: the scan of both runners excludes every path inside the output
subtree `inputRoot / outName`: no enumerated candidate lies under the output
root, and appending walk entries that lie under the output root to the tree
leaves the whole folder-importer run (in particular its scanned count)
unchanged. -/
theorem C2_output_subtree_excluded (outName : String) (ocr : Option OcrResults)
    (tree extra : List WalkDir) :
    (∀ rd f, (rd, f) ∈ enumerateFI outName tree → ∀ rest, rd ≠ outName :: rest)
  ∧ (∀ rd f, (rd, f) ∈ enumerateSt outName tree → ∀ rest, rd ≠ outName :: rest)
  ∧ ((∀ w ∈ extra, ∃ rest, w.relDir = outName :: rest) →
      process_imagesFI outName ocr (tree ++ extra)
        = process_imagesFI outName ocr tree
      ∧ (process_imagesFI outName ocr (tree ++ extra)).total
          = (process_imagesFI outName ocr tree).total) := by
  refine ⟨?_, ?_, ?_⟩
  · intro rd f h rest heq
    have hx := enumerateWith_not_excluded matchesExtFI outName tree rd f h
    rw [heq] at hx
    simp [excludedDir] at hx
  · intro rd f h rest heq
    have hx := enumerateWith_not_excluded matchesExtSt outName tree rd f h
    rw [heq] at hx
    simp [excludedDir] at hx
  · intro hex
    have henum : enumerateFI outName (tree ++ extra) = enumerateFI outName tree := by
      unfold enumerateFI
      exact enumerateWith_append_excluded matchesExtFI outName tree extra
        (fun w hw => by
          obtain ⟨rest, hr⟩ := hex w hw
          simp [excludedDir, hr])
    have hp : process_imagesFI outName ocr (tree ++ extra)
        = process_imagesFI outName ocr tree := by
      unfold process_imagesFI
      rw [henum]
    exact ⟨hp, by rw [hp]⟩

/-- C9: a candidate file whose content is zero bytes fails the `imghdr` type
sniff, so the folder-importer step classifies it as not an image, logs a
warning, skips it, and writes no output file for it. -/
theorem C9_zero_byte_skipped (outName : String) (ocr : Option OcrResults)
    (rd : List String) (f : FileData) (h : f.content = []) :
    imghdr_what f.content = none
  ∧ (fileStepFI outName ocr rd f).2.1 = false
  ∧ Eff.logLine ("warn: not an image despite extension: " ++ f.fname)
      ∈ (fileStepFI outName ocr rd f).1
  ∧ ∀ p, Eff.save p ∉ (fileStepFI outName ocr rd f).1 := by
  have hs : imghdr_what f.content = none := by rw [h]; rfl
  refine ⟨hs, ?_, ?_, ?_⟩
  · simp [fileStepFI, hs]
  · simp [fileStepFI, hs]
  · intro p
    simp [fileStepFI, hs]

/-- C10: both batch runners create the mirrored output parent directory as
their first effect, before any acquisition step; consequently a skipped
candidate still leaves the directory-creation effect behind although no
output file is written for it. -/
theorem C10_mkdir_before_acquisition (outName : String) (ocr : Option OcrResults)
    (rd : List String) (f : FileData) :
    (fileStepFI outName ocr rd f).1.head? = some (Eff.mkdirp (outName :: rd))
  ∧ (fileStepSt outName ocr rd f).1.head? = some (Eff.mkdirp (outName :: rd))
  ∧ ((fileStepFI outName ocr rd f).2.1 = false →
      ∀ p, Eff.save p ∉ (fileStepFI outName ocr rd f).1)
  ∧ ((fileStepSt outName ocr rd f).2.1 = false →
      ∀ p, Eff.save p ∉ (fileStepSt outName ocr rd f).1) := by
  rcases f with ⟨fn, ct, pr, bl, fj, tr⟩
  refine ⟨?_, ?_, ?_, ?_⟩
  · cases h : imghdr_what ct <;> cases pr <;> cases bl <;> cases fj <;> cases tr <;>
      simp [fileStepFI, h]
  · cases h : load_image_safely ⟨fn, ct, pr, bl, fj, tr⟩ <;> cases tr <;>
      simp_all [fileStepSt]
  · cases h : imghdr_what ct <;> cases pr <;> cases bl <;> cases fj <;> cases tr <;>
      simp [fileStepFI, h]
  · cases h : load_image_safely ⟨fn, ct, pr, bl, fj, tr⟩ <;> cases tr <;>
      simp_all [fileStepSt]

/-- A well-formed PNG candidate used by concrete witnesses. -/
def wFile : FileData := ⟨"a.png", pngSig, some 1, none, none, some 1⟩

/-- A walk entry at the input root holding one candidate. -/
def wDir : WalkDir := ⟨[], [wFile]⟩

/-- A walk entry inside the output subtree, as left behind by a prior run. -/
def wOut : WalkDir := ⟨["output"], [wFile]⟩

theorem C2_output_subtree_excluded_witness :
    process_imagesFI "output" none ([wDir] ++ [wOut])
      = process_imagesFI "output" none [wDir] :=
  ((C2_output_subtree_excluded "output" none [wDir] [wOut]).2.2
    (fun w hw => by
      simp only [List.mem_singleton] at hw
      exact ⟨[], by rw [hw]; rfl⟩)).1

/-- A candidate whose name carries a recognized extension but whose content
is empty (zero bytes). -/
def f0 : FileData := ⟨"z.png", [], some 1, some 1, some 1, some 1⟩

theorem C9_zero_byte_skipped_witness :
    imghdr_what f0.content = none
  ∧ (fileStepFI "output" none [] f0).2.1 = false
  ∧ Eff.logLine ("warn: not an image despite extension: " ++ f0.fname)
      ∈ (fileStepFI "output" none [] f0).1
  ∧ ∀ p, Eff.save p ∉ (fileStepFI "output" none [] f0).1 :=
  C9_zero_byte_skipped "output" none [] f0 rfl

theorem C10_mkdir_before_acquisition_witness :
    (fileStepFI "output" none [] f0).1.head? = some (Eff.mkdirp ["output"])
  ∧ Eff.save ["output", "z.png"] ∉ (fileStepFI "output" none [] f0).1 :=
  ⟨(C10_mkdir_before_acquisition "output" none [] f0).1,
   (C10_mkdir_before_acquisition "output" none [] f0).2.2.1 (by rfl)
     ["output", "z.png"]⟩

/-- C7: for a run of either batch runner in which every candidate acquires a
decoded image and the transform raises for exactly one candidate, the run
completes with the other N-1 candidates processed and written (one save
effect each), the failing one skipped, and all N counted as scanned. -/
theorem C7_single_transform_failure (outName : String) (ocr : Option OcrResults)
    (tree : List WalkDir)
    (hdec : ∀ c ∈ enumerateFI outName tree, decodesFI c.2 = true)
    (hone : (enumerateFI outName tree).countP
        (fun c => c.2.transform.isNone) = 1)
    (hdecS : ∀ c ∈ enumerateSt outName tree, (load_image_safely c.2).isSome = true)
    (honeS : (enumerateSt outName tree).countP
        (fun c => c.2.transform.isNone) = 1) :
    ((process_imagesFI outName ocr tree).total
      = (enumerateFI outName tree).length
  ∧ (process_imagesFI outName ocr tree).processed
      = (enumerateFI outName tree).length - 1
  ∧ (process_imagesFI outName ocr tree).skipped = 1
  ∧ (process_imagesFI outName ocr tree).effs.countP isSave
      = (enumerateFI outName tree).length - 1)
  ∧ ((process_imagesSt outName ocr tree).acc.total
      = (enumerateSt outName tree).length
  ∧ (process_imagesSt outName ocr tree).acc.processed
      = (enumerateSt outName tree).length - 1
  ∧ (process_imagesSt outName ocr tree).acc.skipped = 1
  ∧ (process_imagesSt outName ocr tree).acc.effs.countP isSave
      = (enumerateSt outName tree).length - 1) := by
  obtain ⟨h1, h2, h3, h4⟩ := runFI_counts outName ocr tree
  obtain ⟨g1, g2, g3, g4⟩ := runSt_counts outName ocr tree
  set l := enumerateFI outName tree with hl
  set k := enumerateSt outName tree with hk
  have hok : l.countP (fun c => okFI c.2)
      = l.countP (fun c => c.2.transform.isSome) :=
    List.countP_congr (fun c hc => by simp [okFI, hdec c hc])
  have hnot : l.countP (fun c => !okFI c.2)
      = l.countP (fun c => c.2.transform.isNone) :=
    List.countP_congr (fun c hc => by
      cases h : c.2.transform <;> simp [okFI, hdec c hc, h])
  have hsum : l.countP (fun c => c.2.transform.isSome)
      + l.countP (fun c => c.2.transform.isNone) = l.length := by
    have hb := countP_not_add
      (fun c : List String × FileData => c.2.transform.isSome) l
    have : l.countP (fun c => !c.2.transform.isSome)
        = l.countP (fun c => c.2.transform.isNone) :=
      List.countP_congr (fun c hc => by cases c.2.transform <;> simp)
    omega
  have hokS : k.countP (fun c => okSt c.2)
      = k.countP (fun c => c.2.transform.isSome) :=
    List.countP_congr (fun c hc => by simp [okSt, hdecS c hc])
  have hnotS : k.countP (fun c => !okSt c.2)
      = k.countP (fun c => c.2.transform.isNone) :=
    List.countP_congr (fun c hc => by
      cases h : c.2.transform <;> simp [okSt, hdecS c hc, h])
  have hsumS : k.countP (fun c => c.2.transform.isSome)
      + k.countP (fun c => c.2.transform.isNone) = k.length := by
    have hb := countP_not_add
      (fun c : List String × FileData => c.2.transform.isSome) k
    have : k.countP (fun c => !c.2.transform.isSome)
        = k.countP (fun c => c.2.transform.isNone) :=
      List.countP_congr (fun c hc => by cases c.2.transform <;> simp)
    omega
  refine ⟨⟨h1, ?_, ?_, ?_⟩, ⟨g1, ?_, ?_, ?_⟩⟩
  · rw [h2, hok]; omega
  · rw [h3, hnot, hone]
  · rw [h4, hok]; omega
  · rw [g2, hokS]; omega
  · rw [g3, hnotS, honeS]
  · rw [g4, hokS]; omega

/-- A candidate that decodes and whose transform succeeds. -/
def fGood : FileData := ⟨"a.png", pngSig, some 1, none, none, some 2⟩

/-- A candidate that decodes but whose transform raises. -/
def fBad : FileData := ⟨"b.png", pngSig, some 1, none, none, none⟩

/-- A two-candidate input tree with exactly one failing transform. -/
def wTree7 : List WalkDir := [⟨[], [fGood, fBad]⟩]

theorem C7_single_transform_failure_witness :
    ((process_imagesFI "output" none wTree7).total
      = (enumerateFI "output" wTree7).length
  ∧ (process_imagesFI "output" none wTree7).processed
      = (enumerateFI "output" wTree7).length - 1
  ∧ (process_imagesFI "output" none wTree7).skipped = 1
  ∧ (process_imagesFI "output" none wTree7).effs.countP isSave
      = (enumerateFI "output" wTree7).length - 1)
  ∧ ((process_imagesSt "output" none wTree7).acc.total
      = (enumerateSt "output" wTree7).length
  ∧ (process_imagesSt "output" none wTree7).acc.processed
      = (enumerateSt "output" wTree7).length - 1
  ∧ (process_imagesSt "output" none wTree7).acc.skipped = 1
  ∧ (process_imagesSt "output" none wTree7).acc.effs.countP isSave
      = (enumerateSt "output" wTree7).length - 1) :=
  C7_single_transform_failure "output" none wTree7
    (by decide) (by decide) (by decide) (by decide)

/-- C8: the computed output filename carries the `"a_b_"` tag exactly when
the side channel has a record for the stem whose `'X'` list has at least two
values `a, b, ...`; with no side channel, no record for the stem, or fewer
than two values, the filename is exactly `stem ++ suffix`, the extension
always preserved. -/
theorem C8_ocr_tag_naming (ocr : Option OcrResults) (stem sfx : String) :
    (∀ m record a b rest, ocr = some m → m.lookup stem = some record →
        record.lookup "X" = some (a :: b :: rest) →
        outputName ocr stem sfx
          = toString a ++ "_" ++ toString b ++ "_" ++ stem ++ sfx)
  ∧ (ocr = none → outputName ocr stem sfx = stem ++ sfx)
  ∧ (∀ m, ocr = some m → m.lookup stem = none →
        outputName ocr stem sfx = stem ++ sfx)
  ∧ (∀ m record, ocr = some m → m.lookup stem = some record →
        ((record.lookup "X").getD []).length < 2 →
        outputName ocr stem sfx = stem ++ sfx) := by
  refine ⟨?_, ?_, ?_, ?_⟩
  · intro m record a b rest h1 h2 h3
    subst h1
    cases m with
    | nil => simp [List.lookup] at h2
    | cons hd tl =>
      simp [outputName, ocrText, h2, h3]
  · intro h1
    subst h1
    rfl
  · intro m h1 h2
    subst h1
    cases m with
    | nil => rfl
    | cons hd tl =>
      simp [outputName, ocrText, h2]
  · intro m record h1 h2 hlen
    subst h1
    cases m with
    | nil => simp [List.lookup] at h2
    | cons hd tl =>
      cases hx : (record.lookup "X").getD [] with
      | nil => simp [outputName, ocrText, h2, hx]
      | cons a tl2 =>
        cases tl2 with
        | nil => simp [outputName, ocrText, h2, hx]
        | cons b tl3 =>
          rw [hx] at hlen
          simp at hlen
          omega

/-- The side-channel fixture `doc -> X -> [12, 34]` of the specification. -/
def m8 : OcrResults := [("doc", [("X", [12, 34])])]

theorem C8_ocr_tag_naming_witness :
    outputName (some m8) "doc" ".png"
      = toString 12 ++ "_" ++ toString 34 ++ "_" ++ "doc" ++ ".png"
  ∧ outputName none "doc" ".png" = "doc" ++ ".png" :=
  ⟨(C8_ocr_tag_naming (some m8) "doc" ".png").1 m8 [("X", [12, 34])] 12 34 []
      rfl rfl rfl,
   (C8_ocr_tag_naming none "doc" ".png").2.1 rfl⟩

/-- C5: once the type sniff passes, `safe_load_image` attempts the remaining
strategies in the fixed order direct decode, byte-buffer decode,
forced-format decode with the extension-derived token, then the exhaustive
JPEG, PNG, BMP, TIFF, GIF, WEBP sweep, returning the first success; the
token maps `jpg` to `jpeg` and uppercases every other extension. -/
theorem C5_fallback_cascade (f : ImgFile)
    (h : (imghdr_what f.content).isSome = true) :
    safe_load_image f
      = firstSome ([f.direct, f.byteLoad, f.forced (formatToken f.suffix)]
          ++ commonFormats.map f.forced)
  ∧ formatToken ".jpg" = "JPEG"
  ∧ (∀ s, stripDots (strLower s) ≠ "jpg" →
        formatToken s = strUpper (stripDots (strLower s))) := by
  refine ⟨?_, by decide, ?_⟩
  · rcases f with ⟨fn, sfx, ct, dir, bl, fr⟩
    cases hi : imghdr_what ct with
    | none => rw [hi] at h; simp at h
    | some v =>
      cases dir with
      | some w => simp [safe_load_image, safe_load_image_run, hi, firstSome]
      | none =>
        cases bl with
        | some w => simp [safe_load_image, safe_load_image_run, hi, firstSome]
        | none =>
          cases hfr : fr (formatToken sfx) with
          | some w =>
            simp [safe_load_image, safe_load_image_run, hi, hfr, firstSome]
          | none =>
            simp [safe_load_image, safe_load_image_run, hi, hfr, firstSome,
              exhaust_eq_firstSome]
  · intro s hs
    simp only [formatToken]
    rw [if_neg hs]

/-- A well-formed PNG file on which the direct decode succeeds. -/
def wImg : ImgFile := ⟨"a.png", ".png", pngSig, some 7, none, fun _ => none⟩

theorem C5_fallback_cascade_witness :
    safe_load_image wImg
      = firstSome ([wImg.direct, wImg.byteLoad,
          wImg.forced (formatToken wImg.suffix)]
          ++ commonFormats.map wImg.forced)
  ∧ formatToken ".jpg" = "JPEG" :=
  ⟨(C5_fallback_cascade wImg (by decide)).1,
   (C5_fallback_cascade wImg (by decide)).2.1⟩

/-- A file with a recognized extension whose content fails the type sniff,
while every decoder oracle would succeed. -/
def f_noimg : ImgFile := ⟨"a.png", ".png", [], some 1, some 1, fun _ => some 1⟩

/-- A file that passes the type sniff but on which every decode strategy
fails. -/
def f_exhaust : ImgFile := ⟨"b.png", ".png", pngSig, none, none, fun _ => none⟩

/-- C6 counterexample: the two failure kinds — failed type sniff and decode
exhaustion — produce the very same return value `none`, so the value
returned to the caller carries neither a distinguishing verdict nor any
diagnostic strings. -/
theorem C6_verdict_counterexample :
    safe_load_image f_noimg = safe_load_image f_exhaust
  ∧ safe_load_image f_noimg = none
  ∧ imghdr_what f_noimg.content = none
  ∧ (imghdr_what f_exhaust.content).isSome = true :=
  ⟨rfl, rfl, rfl, rfl⟩

/-- C6 amended: on failure `safe_load_image` returns `none` in both cases;
the distinction between the failure kinds and the per-strategy diagnostics
exist only in the printed console lines — one type-check message for a
sniff failure, and per-strategy messages for the standard, byte-buffer and
forced-format attempts when decoding is exhausted (the exhaustive sweep
prints nothing on failure) — and are not returned to the caller. -/
theorem C6_failure_verdict_amended (f : ImgFile) :
    (imghdr_what f.content = none →
      safe_load_image_run f
        = (none, ["warn: file type check failed: " ++ f.fname]))
  ∧ ((imghdr_what f.content).isSome = true → f.direct = none →
      f.byteLoad = none → (∀ fmt, f.forced fmt = none) →
      safe_load_image_run f
        = (none, ["warn: standard load failed", "warn: byte load failed",
            "warn: forced format load failed"])) := by
  constructor
  · intro h
    rcases f with ⟨fn, sfx, ct, dir, bl, fr⟩
    simp only at h
    simp [safe_load_image_run, h]
  · intro h hd hb hf
    rcases f with ⟨fn, sfx, ct, dir, bl, fr⟩
    simp only at h hd hb hf
    subst hd
    subst hb
    cases hi : imghdr_what ct with
    | none => rw [hi] at h; simp at h
    | some v => simp [safe_load_image_run, hi, exhaust, hf]

theorem C6_failure_verdict_amended_witness :
    safe_load_image_run f_exhaust
      = (none, ["warn: standard load failed", "warn: byte load failed",
          "warn: forced format load failed"]) :=
  (C6_failure_verdict_amended f_exhaust).2 (by decide) rfl rfl (fun _ => rfl)

/-- A `.tif` candidate whose content and oracles would all succeed. -/
def tifFile : FileData := ⟨"a.tif", pngSig, some 1, none, none, some 1⟩

/-- C3 counterexample: the folder-importer extension filter rejects
`"a.tif"` although `.tif` belongs to the claimed extension set, so a `.tif`
file placed at the input root is never scanned by that runner (scanned
count 0). -/
theorem C3_tif_counterexample :
    matchesExtFI "a.tif" = false
  ∧ strEndsWith (strLower "a.tif") ".tif" = true
  ∧ ".tif" ∈ claimedExtSet
  ∧ enumerateFI "output" [⟨[], [tifFile]⟩] = []
  ∧ (process_imagesFI "output" none [⟨[], [tifFile]⟩]).total = 0 :=
  ⟨by decide, by decide, by decide, by decide, by decide⟩

/-- C3 amended: the streamlit matcher accepts exactly the names whose
lowercased form ends with one of the seven claimed extensions (so every
`.tif` file, in any letter case, is scanned there), while the
folder-importer matcher accepts exactly the claimed set with `.tif`
removed. -/
theorem C3_extension_set_amended :
    (∀ name, matchesExtSt name
        = claimedExtSet.any (fun e => strEndsWith (strLower name) e))
  ∧ (∀ name, matchesExtFI name
        = (claimedExtSet.erase ".tif").any (fun e => strEndsWith (strLower name) e))
  ∧ (∀ name, strEndsWith (strLower name) ".tif" = true →
        matchesExtSt name = true) := by
  refine ⟨?_, ?_, ?_⟩
  · intro name
    simp only [matchesExtSt, IMAGE_EXTENSIONS, claimedExtSet, List.any_cons,
      List.any_nil]
    generalize strEndsWith (strLower name) ".png" = a
    generalize strEndsWith (strLower name) ".jpg" = b
    generalize strEndsWith (strLower name) ".jpeg" = c
    generalize strEndsWith (strLower name) ".bmp" = d
    generalize strEndsWith (strLower name) ".tiff" = e
    generalize strEndsWith (strLower name) ".gif" = g
    generalize strEndsWith (strLower name) ".tif" = t
    revert a b c d e g t
    decide
  · intro name
    have h : claimedExtSet.erase ".tif" = folderImporterExts := by decide
    rw [h]
    rfl
  · intro name h
    simp [matchesExtSt, IMAGE_EXTENSIONS, h]

theorem C3_extension_set_amended_witness : matchesExtSt "A.TIF" = true :=
  C3_extension_set_amended.2.2 "A.TIF" (by decide)

/-- C4: on a run that scans zero candidate files, the streamlit summary's
success-rate expression `processed/total*100` has a zero divisor, modelled
as `none` (a `ZeroDivisionError`), rather than reporting `0.0`. -/
theorem C4_zero_scanned_rate_bug :
    (process_imagesSt "output" none []).acc.total = 0
  ∧ (process_imagesSt "output" none []).rate = none
  ∧ successRate 0 0 = none :=
  ⟨rfl, rfl, rfl⟩
